import Mathlib

/-
Verification of the chatwisp-pdf conversion core.

The repository is a browser-side utility converting a shared Claude
conversation link into a downloadable PDF.  The live code path is the
final ("Modified") variant of src/utils/pdfUtils.ts together with
src/utils/validation.ts.  This file gives a shallow embedding of that
code: pure string functions are translated directly; the platform URL
parser, the network, the offscreen iframe and the html2canvas capture
are modelled as explicit environments, and the observable actions of a
conversion run (requests issued, iframe appended/removed, files saved,
fallback invoked) are recorded as an event trace.
-/

set_option maxRecDepth 2000

namespace ChatwispPdf

/-! ## Character and list utilities modelling JavaScript string primitives -/

/-- ASCII lower-casing of a character, as the URL parser applies to hosts. -/
def asciiLower (c : Char) : Char :=
  if 'A' ≤ c ∧ c ≤ 'Z' then Char.ofNat (c.toNat + 32) else c

/-- Does the second list start with the first (models String.startsWith)? -/
def startsList : List Char → List Char → Bool
  | [], _ => true
  | _ :: _, [] => false
  | a :: as, b :: bs => a = b && startsList as bs

/-- Case-insensitive variant of startsList; the pattern is given in lower
case, the text is lowered on the fly (models a regex with the i flag). -/
def startsListCI : List Char → List Char → Bool
  | [], _ => true
  | _ :: _, [] => false
  | a :: as, b :: bs => a = asciiLower b && startsListCI as bs

/-- Does the text contain the pattern as a contiguous substring
(models JavaScript String.includes)? -/
def containsSub (pat : List Char) : List Char → Bool
  | [] => startsList pat []
  | c :: rest => startsList pat (c :: rest) || containsSub pat rest

/-- Split a list at the first occurrence of the pattern, returning the part
before the pattern and the part after it; none when the pattern does not
occur. -/
def splitFirstOn (pat : List Char) : List Char → Option (List Char × List Char)
  | [] => if startsList pat [] then some ([], []) else none
  | c :: rest =>
    if startsList pat (c :: rest) then some ([], List.drop pat.length (c :: rest))
    else (splitFirstOn pat rest).map (fun pr => (c :: pr.1, pr.2))

/-- Case-insensitive variant of splitFirstOn (pattern given in lower case). -/
def splitFirstOnCI (pat : List Char) : List Char → Option (List Char × List Char)
  | [] => if startsListCI pat [] then some ([], []) else none
  | c :: rest =>
    if startsListCI pat (c :: rest) then some ([], List.drop pat.length (c :: rest))
    else (splitFirstOnCI pat rest).map (fun pr => (c :: pr.1, pr.2))

/-- Models the JavaScript expression text.split(sep)[1] for a non-empty
separator: the slice between the first occurrence of the separator and the
following occurrence (or the end); none when the separator does not occur
(JavaScript would yield undefined). -/
def jsSplitSecond (pat l : List Char) : Option (List Char) :=
  match splitFirstOn pat l with
  | none => none
  | some (_, post) =>
    match splitFirstOn pat post with
    | none => some post
    | some (mid, _) => some mid

/-! ## Modelled platform URL parser -/

/-- The parts of a parsed URL the validator consults. -/
structure URLParts where
  scheme : List Char
  hostname : List Char
  pathname : List Char
deriving DecidableEq

def isAsciiLetter (c : Char) : Bool :=
  ('a' ≤ c && c ≤ 'z') || ('A' ≤ c && c ≤ 'Z')

def isDigitCh (c : Char) : Bool := '0' ≤ c && c ≤ '9'

def isSchemeCh (c : Char) : Bool :=
  isAsciiLetter c || isDigitCh c || c = '+' || c = '-' || c = '.'

/-- Hostname of an authority component: drop a userinfo part up to the last
at-sign, drop a trailing port after a colon, lower-case the rest. -/
def hostOfAuthority (auth : List Char) : List Char :=
  let afterUser := (auth.reverse.takeWhile (fun c => c ≠ '@')).reverse
  (afterUser.takeWhile (fun c => c ≠ ':')).map asciiLower

/-- Pathname from the remainder after the authority: a leading slash starts
the path, which runs to the query or fragment; otherwise the path defaults
to a single slash. -/
def pathOfRest (rest : List Char) : List Char :=
  match rest with
  | '/' :: _ => rest.takeWhile (fun c => c ≠ '?' && c ≠ '#')
  | _ => ['/']

/-- Modelled platform behavior: a simplified WHATWG URL parser covering the
scheme://authority/path form that the validator's inputs take.  It fails
(returns none, as the URL constructor throws) on inputs with no
scheme-separator, an ill-formed scheme, or an empty host; it lower-cases
scheme and host, strips userinfo and port from the host, and cuts the path
at a query or fragment.  Exotic normalizations of the full standard
(scheme-relative forms, percent or punycode decoding) are outside the
model; no claim in this development depends on them. -/
def parseURL (s : List Char) : Option URLParts :=
  match splitFirstOn ("://".data) s with
  | none => none
  | some (scheme, rest) =>
    match scheme with
    | [] => none
    | c :: cs =>
      if isAsciiLetter c && (c :: cs).all isSchemeCh then
        let auth := rest.takeWhile (fun ch => ch ≠ '/' && ch ≠ '?' && ch ≠ '#')
        let afterAuth := rest.dropWhile (fun ch => ch ≠ '/' && ch ≠ '?' && ch ≠ '#')
        let host := hostOfAuthority auth
        if host.isEmpty then none
        else some ⟨(c :: cs).map asciiLower, host, pathOfRest afterAuth⟩
      else none

/-! ## The link validator (src/utils/validation.ts) -/

/-- Consume exactly n hexadecimal characters (case-insensitive), returning
the rest of the list; none when fewer than n such characters are present. -/
def hexRun (n : ℕ) (l : List Char) : Option (List Char) :=
  if (l.take n).length = n ∧ (l.take n).all (fun c =>
      isDigitCh c || ('a' ≤ c && c ≤ 'f') || ('A' ≤ c && c ≤ 'F'))
  then some (l.drop n) else none

/-- Consume a literal hyphen. -/
def expectDash : List Char → Option (List Char)
  | '-' :: r => some r
  | _ => none

/-- The share-identifier shape test: the regex
^[0-9a-f]\x7b8\x7d-[0-9a-f]\x7b4\x7d-[0-9a-f]\x7b4\x7d-[0-9a-f]\x7b4\x7d-[0-9a-f]\x7b12\x7d$
with the i flag, i.e. 8-4-4-4-12 hexadecimal characters joined by hyphens
and nothing else. -/
def uuidTest (l : List Char) : Bool :=
  (do
    let r1 ← hexRun 8 l
    let r2 ← expectDash r1
    let r3 ← hexRun 4 r2
    let r4 ← expectDash r3
    let r5 ← hexRun 4 r4
    let r6 ← expectDash r5
    let r7 ← hexRun 4 r6
    let r8 ← expectDash r7
    let r9 ← hexRun 12 r8
    if r9 = [] then some () else none).isSome

/-- validateClaudeURL from src/utils/validation.ts: false on empty input;
parse the URL (false if parsing fails); require the hostname to contain
"claude.ai" as a substring, the pathname to start with "/share/", and the
pathname.split("/share/")[1] slice to be present, non-empty and of the
fixed identifier shape. -/
def validateClaudeURL (url : String) : Bool :=
  if url = "" then false
  else match parseURL url.data with
    | none => false
    | some u =>
      if ¬ containsSub ("claude.ai".data) u.hostname then false
      else if ¬ startsList ("/share/".data) u.pathname then false
      else match jsSplitSecond ("/share/".data) u.pathname with
        | none => false
        | some sid => if sid.isEmpty then false else uuidTest sid

/-- extractShareId from src/utils/validation.ts: none unless
validateClaudeURL holds, otherwise re-parse the URL and return
pathname.split("/share/")[1]. -/
def extractShareId (url : String) : Option String :=
  if ¬ validateClaudeURL url then none
  else match parseURL url.data with
    | none => none
    | some u =>
      match jsSplitSecond ("/share/".data) u.pathname with
      | none => none
      | some sid => some ⟨sid⟩

example : validateClaudeURL "https://claude.ai/share/3fa85f64-5717-4562-b3fc-2c963f66afa6" = true := by decide
example : validateClaudeURL "" = false := by decide
example : validateClaudeURL "https://claude.ai/shared/abc" = false := by decide
example : validateClaudeURL "not a url" = false := by decide
example : extractShareId "https://claude.ai/share/3fa85f64-5717-4562-b3fc-2c963f66afa6"
    = some "3fa85f64-5717-4562-b3fc-2c963f66afa6" := by decide
example : validateClaudeURL "https://claude.ai.attacker.example/share/3fa85f64-5717-4562-b3fc-2c963f66afa6" = true := by decide

/-- Unfolding of a successful validation: every check the source performs
along the accepting path must have passed. -/
lemma validate_spec (url : String) (h : validateClaudeURL url = true) :
    ∃ u sid, parseURL url.data = some u ∧
      jsSplitSecond ("/share/".data) u.pathname = some sid ∧
      sid.isEmpty = false ∧ uuidTest sid = true ∧
      containsSub ("claude.ai".data) u.hostname = true ∧
      startsList ("/share/".data) u.pathname = true := by
  unfold validateClaudeURL at h
  split at h
  · exact absurd h (by simp)
  · split at h
    · exact absurd h (by simp)
    · next u hu =>
      split at h
      · exact absurd h (by simp)
      · next hcont =>
        split at h
        · exact absurd h (by simp)
        · next hstart =>
          split at h
          · exact absurd h (by simp)
          · next sid hsid =>
            split at h
            · exact absurd h (by simp)
            · next hne =>
              exact ⟨u, sid, hu, hsid, by simpa using hne, h,
                     by simpa using hcont, by simpa using hstart⟩

/-- C5: for every string s, extractShareId s returns a value exactly when
validateClaudeURL s is true, and every returned value matches the fixed
8-4-4-4-12 hexadecimal token shape. -/
theorem claim5_extract_iff_validate (s : String) :
    ((extractShareId s).isSome ↔ validateClaudeURL s = true) ∧
    (∀ v, extractShareId s = some v → uuidTest v.data = true) := by
  by_cases hv : validateClaudeURL s = true
  · obtain ⟨u, sid, hp, hj, _, huu, _, _⟩ := validate_spec s hv
    have he : extractShareId s = some ⟨sid⟩ := by
      unfold extractShareId
      simp [hv, hp, hj]
    refine ⟨by simp [he, hv], ?_⟩
    intro v hvv
    rw [he] at hvv
    cases hvv
    exact huu
  · have hf : validateClaudeURL s = false := by
      simpa [Bool.not_eq_true] using hv
    have he : extractShareId s = none := by
      unfold extractShareId
      simp [hf]
    refine ⟨by simp [he, hf], ?_⟩
    intro v hvv
    rw [he] at hvv
    exact absurd hvv (by simp)

/-- C5 witness: the theorem applied at a concrete accepted link. -/
theorem claim5_extract_iff_validate_witness :
    (extractShareId "https://claude.ai/share/3fa85f64-5717-4562-b3fc-2c963f66afa6").isSome = true ∧
    uuidTest ("3fa85f64-5717-4562-b3fc-2c963f66afa6".data) = true :=
  ⟨by
    have := (claim5_extract_iff_validate
      "https://claude.ai/share/3fa85f64-5717-4562-b3fc-2c963f66afa6").1.mpr (by decide)
    simpa using this,
   (claim5_extract_iff_validate
      "https://claude.ai/share/3fa85f64-5717-4562-b3fc-2c963f66afa6").2
      "3fa85f64-5717-4562-b3fc-2c963f66afa6" (by decide)⟩

/-- C8: validateClaudeURL is a total Boolean function (the embedding of the
try/catch: a parse failure yields false, never an exception), and it
returns false on the empty string, on any input the URL parser rejects, on
a hostname that does not contain the service domain, on a pathname that
does not start with the share path, and on a token slice that fails the
fixed identifier shape. -/
theorem claim8_validate_fails_closed (s : String) :
    (s = "" → validateClaudeURL s = false) ∧
    (parseURL s.data = none → validateClaudeURL s = false) ∧
    (∀ u, parseURL s.data = some u →
      containsSub ("claude.ai".data) u.hostname = false →
      validateClaudeURL s = false) ∧
    (∀ u, parseURL s.data = some u →
      startsList ("/share/".data) u.pathname = false →
      validateClaudeURL s = false) ∧
    (∀ u sid, parseURL s.data = some u →
      jsSplitSecond ("/share/".data) u.pathname = some sid →
      uuidTest sid = false →
      validateClaudeURL s = false) := by
  refine ⟨?_, ?_, ?_, ?_, ?_⟩
  · intro h
    unfold validateClaudeURL
    simp [h]
  · intro h
    unfold validateClaudeURL
    split
    · rfl
    · rw [h]
  · intro u hp hc
    unfold validateClaudeURL
    split
    · rfl
    · rw [hp]
      simp [hc]
  · intro u hp hs
    unfold validateClaudeURL
    split
    · rfl
    · rw [hp]
      simp [hs]
  · intro u sid hp hj huu
    unfold validateClaudeURL
    split
    · rfl
    · simp only [hp]
      split
      · rfl
      · split
        · rfl
        · simp only [hj]
          split
          · rfl
          · exact huu

/-- C8 witness: the theorem applied at a concrete rejected input of each
kind (empty string, non-URL garbage, wrong host, wrong path, bad token). -/
theorem claim8_validate_fails_closed_witness :
    validateClaudeURL "" = false ∧
    validateClaudeURL "not a url" = false ∧
    validateClaudeURL "https://example.com/share/3fa85f64-5717-4562-b3fc-2c963f66afa6" = false ∧
    validateClaudeURL "https://claude.ai/shared/abc" = false ∧
    validateClaudeURL "https://claude.ai/share/xyz" = false :=
  ⟨(claim8_validate_fails_closed "").1 rfl,
   (claim8_validate_fails_closed "not a url").2.1 (by decide),
   (claim8_validate_fails_closed
      "https://example.com/share/3fa85f64-5717-4562-b3fc-2c963f66afa6").2.2.1
      ⟨"https".data, "example.com".data,
        "/share/3fa85f64-5717-4562-b3fc-2c963f66afa6".data⟩
      (by decide) (by decide),
   (claim8_validate_fails_closed "https://claude.ai/shared/abc").2.2.2.1
      ⟨"https".data, "claude.ai".data, "/shared/abc".data⟩
      (by decide) (by decide),
   (claim8_validate_fails_closed "https://claude.ai/share/xyz").2.2.2.2
      ⟨"https".data, "claude.ai".data, "/share/xyz".data⟩ "xyz".data
      (by decide) (by decide) (by decide)⟩

/-! ## The content normalizer processHtml (src/utils/pdfUtils.ts) -/

/-- The first match of the JavaScript regex
/<main[^>]*>([\s\S]*?)<\/main>/i
on a string, returning the captured group: the regex's literal head fixes
the leftmost case-insensitive occurrence of the characters of a main tag
opening; the greedy class of non-closing-bracket characters followed by
the closing bracket reaches exactly the first closing bracket after it;
the lazy group then ends at the first case-insensitive occurrence of the
main end tag.  When the leftmost occurrence admits no such completion, no
later occurrence does either, so the whole regex fails. -/
def findMainGroup (s : List Char) : Option (List Char) :=
  match splitFirstOnCI ("<main".data) s with
  | none => none
  | some (_, afterTag) =>
    match splitFirstOn (">".data) afterTag with
    | none => none
    | some (_, afterGt) =>
      match splitFirstOnCI ("</main>".data) afterGt with
      | none => none
      | some (inner, _) => some inner

/-- The document shell around an extracted main region: the exact template
literal of the matched branch of processHtml, split at its single
interpolation point. -/
def tplMainPre : String := "\n      <!DOCTYPE html>\n      <html>\n      <head>\n        <meta charset=\"UTF-8\">\n        <style>\n          body \x7b \n            font-family: Arial, sans-serif; \n            margin: 20px;\n            background: white;\n            color: black;\n            padding: 20px;\n          \x7d\n          .message \x7b \n            margin-bottom: 20px; \n            padding: 15px; \n            border-radius: 8px;\n          \x7d\n          .human-message, div[data-message-author-role=\"user\"] \x7b\n            background-color: #f0f0f0;\n            margin: 15px 0;\n            border-left: 4px solid #888;\n          \x7d\n          .ai-message, div[data-message-author-role=\"assistant\"] \x7b\n            background-color: #e6f7ff;\n            margin: 15px 0;\n            border-left: 4px solid #0066cc;\n          \x7d\n          .message-header \x7b\n            font-weight: bold;\n            margin-bottom: 10px;\n          \x7d\n          img, svg \x7b\n            max-width: 100%;\n          \x7d\n          pre \x7b\n            background-color: #f5f5f5;\n            padding: 10px;\n            border-radius: 4px;\n            overflow-x: auto;\n            font-size: 14px;\n          \x7d\n          code \x7b\n            font-family: monospace;\n          \x7d\n          h1, h2, h3 \x7b\n            color: #333;\n          \x7d\n        </style>\n      </head>\n      <body>\n        <div class=\"conversation-container\">\n          "

def tplMainPost : String := "\n        </div>\n      </body>\n      </html>\n    "

/-- The degraded shell around the full raw payload: the exact template
literal of the fallback branch of processHtml, split at its interpolation
point. -/
def tplFbPre : String := "\n    <!DOCTYPE html>\n    <html>\n    <head>\n      <meta charset=\"UTF-8\">\n      <style>\n        body \x7b \n          font-family: Arial, sans-serif; \n          margin: 20px;\n          background: white;\n          color: black;\n        \x7d\n        div[data-message-author-role=\"user\"] \x7b\n          background-color: #f0f0f0;\n          padding: 15px;\n          margin: 15px 0;\n          border-left: 4px solid #888;\n        \x7d\n        div[data-message-author-role=\"assistant\"] \x7b\n          background-color: #e6f7ff;\n          padding: 15px;\n          margin: 15px 0;\n          border-left: 4px solid #0066cc;\n        \x7d\n      </style>\n    </head>\n    <body>\n      "

def tplFbPost : String := "\n    </body>\n    </html>\n  "

def mainShell (inner : String) : String := tplMainPre ++ inner ++ tplMainPost

def fallbackShell (raw : String) : String := tplFbPre ++ raw ++ tplFbPost

/-- processHtml from src/utils/pdfUtils.ts: match the main-region regex; a
match with a truthy (non-empty) captured group is wrapped in the styled
shell; otherwise the entire raw payload is wrapped in the degraded shell. -/
def processHtml (html : String) : String :=
  match findMainGroup html.data with
  | some inner => if inner.isEmpty then fallbackShell html else mainShell ⟨inner⟩
  | none => fallbackShell html

example : processHtml "<html><main>hello</main></html>" = mainShell "hello" := rfl
example : processHtml "no region at all" = fallbackShell "no region at all" := rfl
example : findMainGroup ("<MAIN class=\"x\">a<b></MaIn>rest".data) = some ("a<b>".data) := by decide

lemma startsList_append {p a : List Char} (b : List Char)
    (h : startsList p a = true) : startsList p (a ++ b) = true := by
  induction p generalizing a with
  | nil => simp [startsList]
  | cons x xs ih =>
    cases a with
    | nil => simp [startsList] at h
    | cons y ys =>
      simp only [startsList, List.cons_append, Bool.and_eq_true,
        decide_eq_true_eq] at h ⊢
      exact ⟨h.1, ih h.2⟩

lemma containsSub_nil_pat (l : List Char) : containsSub [] l = true := by
  cases l <;> simp [containsSub, startsList]

lemma containsSub_append_left {p a : List Char} (b : List Char)
    (h : containsSub p a = true) : containsSub p (a ++ b) = true := by
  induction a with
  | nil =>
    cases p with
    | nil => simpa using containsSub_nil_pat b
    | cons x xs => simp [containsSub, startsList] at h
  | cons c rest ih =>
    simp only [containsSub, Bool.or_eq_true, List.cons_append] at h ⊢
    rcases h with h | h
    · exact Or.inl (startsList_append b h)
    · exact Or.inr (ih h)

lemma string_data_append (a b : String) : (a ++ b).data = a.data ++ b.data := rfl

/-- The styling marker both shells inject. -/
def cssMarker : String := "font-family: Arial, sans-serif"

lemma mainShell_marker (x : String) :
    containsSub cssMarker.data (mainShell x).data = true := by
  have h1 : containsSub cssMarker.data tplMainPre.data = true := by decide
  have h2 := containsSub_append_left (b := x.data ++ tplMainPost.data) h1
  calc containsSub cssMarker.data (mainShell x).data
      = containsSub cssMarker.data (tplMainPre.data ++ (x.data ++ tplMainPost.data)) := by
        simp [mainShell, string_data_append, List.append_assoc]
    _ = true := h2

lemma fallbackShell_marker (x : String) :
    containsSub cssMarker.data (fallbackShell x).data = true := by
  have h1 : containsSub cssMarker.data tplFbPre.data = true := by decide
  have h2 := containsSub_append_left (b := x.data ++ tplFbPost.data) h1
  calc containsSub cssMarker.data (fallbackShell x).data
      = containsSub cssMarker.data (tplFbPre.data ++ (x.data ++ tplFbPost.data)) := by
        simp [fallbackShell, string_data_append, List.append_assoc]
    _ = true := h2

lemma mainShell_ne_empty (x : String) : mainShell x ≠ "" := by
  intro h
  have hd := congrArg String.data h
  rw [show (mainShell x).data = tplMainPre.data ++ (x.data ++ tplMainPost.data) by
    simp [mainShell, string_data_append, List.append_assoc]] at hd
  have : tplMainPre.data = [] := by
    have := congrArg List.length hd
    simp at this
    exact List.eq_nil_of_length_eq_zero this.1
  exact absurd this (by decide)

lemma fallbackShell_ne_empty (x : String) : fallbackShell x ≠ "" := by
  intro h
  have hd := congrArg String.data h
  rw [show (fallbackShell x).data = tplFbPre.data ++ (x.data ++ tplFbPost.data) by
    simp [fallbackShell, string_data_append, List.append_assoc]] at hd
  have : tplFbPre.data = [] := by
    have := congrArg List.length hd
    simp at this
    exact List.eq_nil_of_length_eq_zero this.1
  exact absurd this (by decide)

/-- C6 counterexample: on the input consisting of an empty main region the
regex does find a main region (captured group present, empty), yet
processHtml wraps the entire raw payload in the degraded shell, not the
region's inner content in the styled shell.  The claim as stated is
therefore false for this input. -/
theorem claim6_counterexample :
    findMainGroup ("<main></main>".data) = some [] ∧
    processHtml "<main></main>" = fallbackShell "<main></main>" ∧
    processHtml "<main></main>" ≠ mainShell "" := by
  refine ⟨by decide, rfl, ?_⟩
  intro h
  have h6 : ((processHtml "<main></main>").data.take 6 =
      (mainShell "").data.take 6) := by rw [h]
  have hne : ¬ ((processHtml "<main></main>").data.take 6 =
      (mainShell "").data.take 6) := by decide
  exact hne h6

/-- C6 amended: processHtml is total and always returns a non-empty
document string containing the injected styling rules; when the main-region
regex captures a non-empty inner content, only that content is wrapped in
the styled shell; when no region is found, or the captured content is
empty (a falsy group in the source's truthiness test), the entire raw
payload is wrapped in the degraded shell. -/
theorem claim6_amended (s : String) :
    processHtml s ≠ "" ∧
    containsSub cssMarker.data (processHtml s).data = true ∧
    (∀ inner, findMainGroup s.data = some inner → inner.isEmpty = false →
      processHtml s = mainShell ⟨inner⟩) ∧
    (findMainGroup s.data = none → processHtml s = fallbackShell s) ∧
    (findMainGroup s.data = some [] → processHtml s = fallbackShell s) := by
  rcases hf : findMainGroup s.data with _ | inner
  · have hp : processHtml s = fallbackShell s := by
      unfold processHtml
      simp [hf]
    refine ⟨hp ▸ fallbackShell_ne_empty s, hp ▸ fallbackShell_marker s, ?_, fun _ => hp, ?_⟩
    · intro inner hinner
      exact absurd hinner (by simp)
    · intro hinner
      exact absurd hinner (by simp)
  · rcases he : inner.isEmpty with _ | _
    · have hp : processHtml s = mainShell ⟨inner⟩ := by
        unfold processHtml
        simp [hf, he]
      refine ⟨hp ▸ mainShell_ne_empty ⟨inner⟩, hp ▸ mainShell_marker ⟨inner⟩, ?_, ?_, ?_⟩
      · intro inner' hinner' _
        have h' : inner = inner' := by simpa using hinner'
        rw [hp, h']
      · intro hinner
        exact absurd hinner (by simp)
      · intro hinner
        have h' : inner = [] := by simpa using hinner
        rw [h'] at he
        exact absurd he (by simp [List.isEmpty])
    · have hinner : inner = [] := List.isEmpty_iff.mp he
      have hp : processHtml s = fallbackShell s := by
        unfold processHtml
        simp [hf, he]
      refine ⟨hp ▸ fallbackShell_ne_empty s, hp ▸ fallbackShell_marker s, ?_, fun _ => hp, fun _ => hp⟩
      intro inner' hinner' hne
      have h' : inner = inner' := by simpa using hinner'
      rw [← h', hinner] at hne
      exact absurd hne (by simp [List.isEmpty])

/-- C6 witness: the amended theorem applied at a concrete input with a
non-empty main region. -/
theorem claim6_amended_witness :
    processHtml "<html><main>hi</main></html>" = mainShell "hi" ∧
    containsSub cssMarker.data (processHtml "<html><main>hi</main></html>").data = true :=
  ⟨(claim6_amended "<html><main>hi</main></html>").2.2.1 ("hi".data) (by decide) (by decide),
   (claim6_amended "<html><main>hi</main></html>").2.1⟩

/-! ## The paginator (the multi-page loop of convertClaudeToPdf) -/

/-- One pdf.addImage call: the full captured image drawn on the current
page at position (x, y) with drawn width w and height h, in millimetres. -/
structure PlacedImage where
  x : ℚ
  y : ℚ
  w : ℚ
  h : ℚ
deriving DecidableEq

/-- The while loop of convertClaudeToPdf: after the first page, while
heightLeft is positive, place the full image on a fresh page at vertical
position -(pageHeight * pageCount) and decrement heightLeft by one page
height. -/
def morePages (imgHeight : ℚ) (heightLeft : ℚ) (pageCount : ℕ) : List PlacedImage :=
  if h : 0 < heightLeft then
    ⟨0, -(297 : ℚ) * pageCount, 210, imgHeight⟩ ::
      morePages imgHeight (heightLeft - 297) (pageCount + 1)
  else []
termination_by (⌈heightLeft / 297⌉).toNat
decreasing_by
  have h297 : (0 : ℚ) < 297 := by norm_num
  have hpos : 0 < ⌈heightLeft / 297⌉ := Int.ceil_pos.mpr (div_pos h h297)
  have hone : (297 : ℚ) / 297 = 1 := by norm_num
  have hceil : ⌈(heightLeft - 297) / 297⌉ = ⌈heightLeft / 297⌉ - 1 := by
    rw [sub_div, hone, Int.ceil_sub_one]
  simp only [hceil]
  omega

/-- The pagination of convertClaudeToPdf: imgWidth is the A4 width 210mm,
imgHeight scales the canvas height to that width; the first page carries
the full image at offset 0, then the loop adds pages while height
remains. -/
def paginate (canvasW canvasH : ℕ) : List PlacedImage :=
  let imgWidth : ℚ := 210
  let imgHeight : ℚ := (canvasH * imgWidth) / canvasW
  ⟨0, 0, imgWidth, imgHeight⟩ :: morePages imgHeight (imgHeight - 297) 1

/-- Closed form of the page-adding loop: for remaining height x it adds
ceil(x / 297) pages (none when x is nonpositive), the page added at loop
step j sitting at vertical offset -(297 * (pageCount + j)). -/
lemma morePages_eq (imgHeight : ℚ) : ∀ (n : ℕ) (x : ℚ) (k : ℕ),
    (⌈x / 297⌉).toNat = n →
    morePages imgHeight x k =
      (List.range n).map
        (fun j => PlacedImage.mk 0 (-(297 : ℚ) * ((k + j : ℕ) : ℚ)) 210 imgHeight) := by
  intro n
  induction n with
  | zero =>
    intro x k hn
    have hx : ¬ 0 < x := by
      intro hx
      have : 0 < ⌈x / 297⌉ := Int.ceil_pos.mpr (div_pos hx (by norm_num))
      omega
    rw [morePages, dif_neg hx]
    simp
  | succ n ih =>
    intro x k hn
    have hpos : 0 < ⌈x / 297⌉ := by omega
    have hx : 0 < x := by
      by_contra hc
      push_neg at hc
      have h1 : x / 297 ≤ 0 := div_nonpos_iff.mpr (Or.inr ⟨hc, by norm_num⟩)
      have h2 : ⌈x / 297⌉ ≤ 0 := Int.ceil_le.mpr (by exact_mod_cast h1)
      omega
    have hone : (297 : ℚ) / 297 = 1 := by norm_num
    have hceil : ⌈(x - 297) / 297⌉ = ⌈x / 297⌉ - 1 := by
      rw [sub_div, hone, Int.ceil_sub_one]
    have htail : (⌈(x - 297) / 297⌉).toNat = n := by
      rw [hceil]
      omega
    rw [morePages, dif_pos hx, ih _ _ htail, List.range_succ_eq_map,
      List.map_cons, List.map_map]
    congr 1
    refine List.map_congr_left ?_
    intro j _
    have hjj : k + 1 + j = k + (j + 1) := by omega
    simp [Function.comp, hjj]

/-- C4: for positive canvas dimensions, pagination at page height 297 and
scaled content height C = canvasH * 210 / canvasW produces exactly
ceil(C / 297) pages (at least one), the page at index i carrying the full
scaled image at vertical offset -(297 * i), so page 0 sits at offset 0 and
a content height that is an exact positive multiple of the page height
emits no trailing blank page. -/
theorem claim4_pagination (w h : ℕ) (hw : 0 < w) (hh : 0 < h) :
    paginate w h =
      (List.range (⌈((h * 210 : ℚ) / w) / 297⌉).toNat).map
        (fun i : ℕ => PlacedImage.mk 0 (-(297 : ℚ) * (i : ℚ)) 210 ((h * 210 : ℚ) / w)) ∧
    (paginate w h).length = (⌈((h * 210 : ℚ) / w) / 297⌉).toNat ∧
    1 ≤ (paginate w h).length := by
  have hCpos : (0 : ℚ) < (h * 210 : ℚ) / w := by
    apply div_pos
    · have : (0 : ℚ) < (h : ℚ) := by exact_mod_cast hh
      nlinarith
    · exact_mod_cast hw
  have hone : (297 : ℚ) / 297 = 1 := by norm_num
  have hceilpos : 0 < ⌈((h * 210 : ℚ) / w) / 297⌉ :=
    Int.ceil_pos.mpr (div_pos hCpos (by norm_num))
  have hceil : ⌈(((h * 210 : ℚ) / w) - 297) / 297⌉ = ⌈((h * 210 : ℚ) / w) / 297⌉ - 1 := by
    rw [sub_div, hone, Int.ceil_sub_one]
  have hn : (⌈((h * 210 : ℚ) / w) / 297⌉).toNat =
      (⌈(((h * 210 : ℚ) / w) - 297) / 297⌉).toNat + 1 := by
    rw [hceil]
    omega
  have hmain : paginate w h =
      (List.range (⌈((h * 210 : ℚ) / w) / 297⌉).toNat).map
        (fun i : ℕ => PlacedImage.mk 0 (-(297 : ℚ) * (i : ℚ)) 210 ((h * 210 : ℚ) / w)) := by
    simp only [paginate]
    rw [morePages_eq _ _ _ _ rfl, hn, List.range_succ_eq_map, List.map_cons,
      List.map_map]
    congr 1
    · simp
    · refine List.map_congr_left ?_
      intro j _
      simp only [Function.comp_apply, Nat.succ_eq_add_one, PlacedImage.mk.injEq,
        true_and, and_true]
      push_cast
      ring
  refine ⟨hmain, ?_, ?_⟩
  · rw [hmain]
    simp
  · rw [hmain]
    simp only [List.length_map, List.length_range]
    omega

/-- C4 witness: a 100 by 200 canvas scales to content height 420, giving
two pages. -/
theorem claim4_pagination_witness :
    (paginate 100 200).length = (⌈((200 * 210 : ℚ) / 100) / 297⌉).toNat ∧
    1 ≤ (paginate 100 200).length :=
  ⟨(claim4_pagination 100 200 (by norm_num) (by norm_num)).2.1,
   (claim4_pagination 100 200 (by norm_num) (by norm_num)).2.2⟩

/-! ## The remote content fetcher fetchClaudeContent (src/utils/pdfUtils.ts)

The network is an environment mapping a request (URL plus headers) to
either a response body or a failure; a failure stands for a transport
error, a non-success status, or a body-read error, all of which the source
treats alike (skip to the next path).  The function additionally returns
the list of requests it issued, in order. -/

/-- An outbound request: the fetched URL and the explicit headers (empty
for the proxied requests, Accept and User-Agent for the final direct
request). -/
structure Request where
  url : String
  headers : List (String × String)
deriving DecidableEq

/-- The reconstructed share link for an identifier. -/
def shareBase (sid : String) : String := "https://claude.ai/share/" ++ sid

/-- The ordered proxy path list of fetchClaudeContent. -/
def corsProxies : List String :=
  ["https://corsproxy.io/?",
   "https://cors-anywhere.herokuapp.com/",
   "https://api.allorigins.win/raw?url="]

def proxyRequest (proxy sid : String) : Request :=
  ⟨proxy ++ shareBase sid, []⟩

def directRequest (sid : String) : Request :=
  ⟨shareBase sid,
   [("Accept", "text/html"),
    ("User-Agent", "Mozilla/5.0 (Windows NT 10.0; Win64; x64) AppleWebKit/537.36")]⟩

/-- The user-facing message of the error fetchClaudeContent raises after
every path has failed. -/
def fetchFailMsg : String :=
  "Failed to fetch Claude conversation. Please make sure the share link is public and valid."

/-- The proxy loop: try each proxy in order, stopping at the first
successful response and recording every request issued. -/
def tryProxies (net : Request → Except String String) (sid : String) :
    List String → Option String × List Request
  | [] => (none, [])
  | p :: rest =>
    match net (proxyRequest p sid) with
    | .ok body => (some body, [proxyRequest p sid])
    | .error _ =>
      let out := tryProxies net sid rest
      (out.1, proxyRequest p sid :: out.2)

/-- fetchClaudeContent: run the proxy loop; if no proxy succeeded, issue
one final direct request with explicit headers; if that also fails, raise
the fixed user-facing error (the raw transport errors are swallowed). -/
def fetchClaudeContent (net : Request → Except String String) (sid : String) :
    Except String String × List Request :=
  let out := tryProxies net sid corsProxies
  match out.1 with
  | some html => (.ok html, out.2)
  | none =>
    match net (directRequest sid) with
    | .ok html => (.ok html, out.2 ++ [directRequest sid])
    | .error _ => (.error fetchFailMsg, out.2 ++ [directRequest sid])

/-- C7: the fetcher tries the proxy paths in order, stopping at the first
success and returning its body with no further requests; only after all
three proxies fail does it issue the one final direct request, whose
explicit Accept and User-Agent headers are part of its request; and it
returns an error only when that final request also fails, the error being
the fixed user-facing message rather than any of the raw transport
errors. -/
theorem claim7_fetch_path_order (net : Request → Except String String) (sid : String) :
    (∀ b, net (proxyRequest ("https://corsproxy.io/?") sid) = .ok b →
      fetchClaudeContent net sid = (.ok b, [proxyRequest ("https://corsproxy.io/?") sid])) ∧
    (∀ e1 b, net (proxyRequest ("https://corsproxy.io/?") sid) = .error e1 →
      net (proxyRequest ("https://cors-anywhere.herokuapp.com/") sid) = .ok b →
      fetchClaudeContent net sid =
        (.ok b, [proxyRequest ("https://corsproxy.io/?") sid,
                 proxyRequest ("https://cors-anywhere.herokuapp.com/") sid])) ∧
    (∀ e1 e2 b, net (proxyRequest ("https://corsproxy.io/?") sid) = .error e1 →
      net (proxyRequest ("https://cors-anywhere.herokuapp.com/") sid) = .error e2 →
      net (proxyRequest ("https://api.allorigins.win/raw?url=") sid) = .ok b →
      fetchClaudeContent net sid =
        (.ok b, [proxyRequest ("https://corsproxy.io/?") sid,
                 proxyRequest ("https://cors-anywhere.herokuapp.com/") sid,
                 proxyRequest ("https://api.allorigins.win/raw?url=") sid])) ∧
    (∀ e1 e2 e3 b, net (proxyRequest ("https://corsproxy.io/?") sid) = .error e1 →
      net (proxyRequest ("https://cors-anywhere.herokuapp.com/") sid) = .error e2 →
      net (proxyRequest ("https://api.allorigins.win/raw?url=") sid) = .error e3 →
      net (directRequest sid) = .ok b →
      fetchClaudeContent net sid =
        (.ok b, [proxyRequest ("https://corsproxy.io/?") sid,
                 proxyRequest ("https://cors-anywhere.herokuapp.com/") sid,
                 proxyRequest ("https://api.allorigins.win/raw?url=") sid,
                 directRequest sid])) ∧
    (∀ e1 e2 e3 e4, net (proxyRequest ("https://corsproxy.io/?") sid) = .error e1 →
      net (proxyRequest ("https://cors-anywhere.herokuapp.com/") sid) = .error e2 →
      net (proxyRequest ("https://api.allorigins.win/raw?url=") sid) = .error e3 →
      net (directRequest sid) = .error e4 →
      fetchClaudeContent net sid =
        (.error fetchFailMsg,
         [proxyRequest ("https://corsproxy.io/?") sid,
          proxyRequest ("https://cors-anywhere.herokuapp.com/") sid,
          proxyRequest ("https://api.allorigins.win/raw?url=") sid,
          directRequest sid])) ∧
    (directRequest sid).headers =
      [("Accept", "text/html"),
       ("User-Agent", "Mozilla/5.0 (Windows NT 10.0; Win64; x64) AppleWebKit/537.36")] := by
  refine ⟨?_, ?_, ?_, ?_, ?_, rfl⟩
  · intro b h1
    simp [fetchClaudeContent, tryProxies, corsProxies, h1]
  · intro e1 b h1 h2
    simp [fetchClaudeContent, tryProxies, corsProxies, h1, h2]
  · intro e1 e2 b h1 h2 h3
    simp [fetchClaudeContent, tryProxies, corsProxies, h1, h2, h3]
  · intro e1 e2 e3 b h1 h2 h3 h4
    simp [fetchClaudeContent, tryProxies, corsProxies, h1, h2, h3, h4]
  · intro e1 e2 e3 e4 h1 h2 h3 h4
    simp [fetchClaudeContent, tryProxies, corsProxies, h1, h2, h3, h4]

/-- C7 witness: the theorem applied to a concrete network where the first
two proxies fail and the third succeeds, and to one where everything
fails. -/
theorem claim7_fetch_path_order_witness :
    fetchClaudeContent
        (fun r => if r.url = "https://api.allorigins.win/raw?url=https://claude.ai/share/abc"
          then .ok "<html>x</html>" else .error "network down") "abc" =
      (.ok "<html>x</html>",
       [proxyRequest ("https://corsproxy.io/?") "abc",
        proxyRequest ("https://cors-anywhere.herokuapp.com/") "abc",
        proxyRequest ("https://api.allorigins.win/raw?url=") "abc"]) ∧
    fetchClaudeContent (fun _ => .error "network down") "abc" =
      (.error fetchFailMsg,
       [proxyRequest ("https://corsproxy.io/?") "abc",
        proxyRequest ("https://cors-anywhere.herokuapp.com/") "abc",
        proxyRequest ("https://api.allorigins.win/raw?url=") "abc",
        directRequest "abc"]) :=
  ⟨(claim7_fetch_path_order
      (fun r => if r.url = "https://api.allorigins.win/raw?url=https://claude.ai/share/abc"
        then .ok "<html>x</html>" else .error "network down") "abc").2.2.1
      "network down" "network down" "<html>x</html>"
      rfl rfl rfl,
   (claim7_fetch_path_order (fun _ => .error "network down") "abc").2.2.2.2.1
      "network down" "network down" "network down" "network down"
      rfl rfl rfl rfl⟩

/-! ## The conversion pipeline convertClaudeToPdf (src/utils/pdfUtils.ts)

The orchestration is embedded as a function of an environment holding the
outcomes of the effectful steps (network, iframe load, content lookup,
canvas capture), returning the promise outcome together with the trace of
observable actions: requests issued, the offscreen iframe appended to and
removed from the document, the fallback generator invoked, and files
offered for download. -/

/-- A captured canvas with pixel dimensions. -/
structure Canvas where
  width : ℕ
  height : ℕ
deriving DecidableEq

/-- The possible outcomes of createTemporaryIframe: the iframe loads and
the promise resolves; the 10-second timeout fires, which rejects and also
removes the iframe; or the content window is inaccessible, which rejects
with the iframe left attached (a stale timer would remove it 10 seconds
later, outside the synchronous trace of the conversion call). -/
inductive IframeOutcome where
  | loaded
  | timedOut
  | noContentWindow
deriving DecidableEq

/-- The environment of one conversion attempt. -/
structure ConvEnv where
  net : Request → Except String String
  iframe : String → IframeOutcome
  bodyFound : Bool
  canvas : Except String Canvas

/-- A produced document: either the paginated image document of the
primary path, or the text-only document of the fallback generator. -/
inductive PdfDoc where
  | image (pages : List PlacedImage)
  | textDoc (lines : List String)
deriving DecidableEq

/-- Observable actions of a conversion run. -/
inductive Event where
  | requested (r : Request)
  | iframeAppended
  | iframeRemoved
  | fallbackInvoked
  | saved (name : String) (doc : PdfDoc)
deriving DecidableEq

/-- The deterministic download file name. -/
def pdfName (sid : String) : String := "claude-conversation-" ++ sid ++ ".pdf"

def invalidLinkMsg : String := "Invalid Claude share URL"

/-- The message of the error convertClaudeToPdf rethrows when the fallback
generation itself fails. -/
def genericFailMsg : String :=
  "Failed to generate PDF. Please try again or use browser print function."

/-- The text lines of the fallback document, in the order of the pdf.text
calls of fallbackPdfGeneration. -/
def fallbackLines (sid : String) : List String :=
  ["Claude Conversation",
   "Share URL: " ++ shareBase sid,
   "The automatic PDF generation encountered technical difficulties.",
   "To save this conversation as PDF, please try one of these alternatives:",
   "1. Open the share URL in your browser and use the browser's print function",
   "   (Select \"Save as PDF\" as the printer)",
   "2. Try again later when the service might be more stable",
   "3. Take screenshots of the conversation"]

/-- fallbackPdfGeneration: re-extract the identifier (throwing the
invalid-link error if absent), build the instructional document, and save
it under the deterministic name. -/
def fallbackPdfGeneration (url : String) : Except String (List Event) :=
  match extractShareId url with
  | none => .error invalidLinkMsg
  | some sid => .ok [.saved (pdfName sid) (.textDoc (fallbackLines sid))]

/-- The try block of convertClaudeToPdf: extract the identifier (throw if
absent), fetch the content, normalize it, load it into the appended
iframe, look up the content element, capture it, paginate, save under the
deterministic name, then remove the iframe.  An error carries the events
that had already happened when it was thrown. -/
def tryMain (env : ConvEnv) (url : String) : Except (String × List Event) (List Event) :=
  match extractShareId url with
  | none => .error (invalidLinkMsg, [])
  | some sid =>
    match fetchClaudeContent env.net sid with
    | (.error e, reqs) => .error (e, reqs.map Event.requested)
    | (.ok html, reqs) =>
      match env.iframe (processHtml html) with
      | .timedOut =>
        .error ("Iframe loading timed out",
          reqs.map Event.requested ++ [.iframeAppended, .iframeRemoved])
      | .noContentWindow =>
        .error ("Could not access iframe content window",
          reqs.map Event.requested ++ [.iframeAppended])
      | .loaded =>
        if env.bodyFound then
          match env.canvas with
          | .error e => .error (e, reqs.map Event.requested ++ [.iframeAppended])
          | .ok c =>
            .ok (reqs.map Event.requested ++
              [.iframeAppended,
               .saved (pdfName sid) (.image (paginate c.width c.height)),
               .iframeRemoved])
        else .error ("Could not find content to convert",
          reqs.map Event.requested ++ [.iframeAppended])

/-- convertClaudeToPdf: run the try block; on any error, invoke the
fallback generation; if that also fails, reject with the generic message,
otherwise resolve. -/
def convertClaudeToPdf (env : ConvEnv) (url : String) :
    Except String Unit × List Event :=
  match tryMain env url with
  | .ok ev => (.ok (), ev)
  | .error (_, ev) =>
    match fallbackPdfGeneration url with
    | .ok fb => (.ok (), ev ++ Event.fallbackInvoked :: fb)
    | .error _ => (.error genericFailMsg, ev ++ [Event.fallbackInvoked])

/-- The files offered for download during a run, in order. -/
def savedFiles (evs : List Event) : List (String × PdfDoc) :=
  evs.filterMap fun e =>
    match e with
    | .saved n d => some (n, d)
    | _ => none

lemma savedFiles_append (a b : List Event) :
    savedFiles (a ++ b) = savedFiles a ++ savedFiles b := by
  simp [savedFiles]

lemma savedFiles_requested (l : List Request) :
    savedFiles (l.map Event.requested) = [] := by
  induction l with
  | nil => rfl
  | cons r rest ih => simp [savedFiles]

/-- When every network path fails, the fetcher issues all three proxy
requests and the direct request and returns the fixed error. -/
lemma fetch_all_fail (net : Request → Except String String) (sid : String)
    (hnet : ∀ r b, net r ≠ .ok b) :
    fetchClaudeContent net sid =
      (.error fetchFailMsg,
       [proxyRequest ("https://corsproxy.io/?") sid,
        proxyRequest ("https://cors-anywhere.herokuapp.com/") sid,
        proxyRequest ("https://api.allorigins.win/raw?url=") sid,
        directRequest sid]) := by
  rcases h1 : net (proxyRequest ("https://corsproxy.io/?") sid) with e1 | b1
  swap
  · exact absurd h1 (hnet _ _)
  rcases h2 : net (proxyRequest ("https://cors-anywhere.herokuapp.com/") sid) with e2 | b2
  swap
  · exact absurd h2 (hnet _ _)
  rcases h3 : net (proxyRequest ("https://api.allorigins.win/raw?url=") sid) with e3 | b3
  swap
  · exact absurd h3 (hnet _ _)
  rcases h4 : net (directRequest sid) with e4 | b4
  swap
  · exact absurd h4 (hnet _ _)
  simp [fetchClaudeContent, tryProxies, corsProxies, h1, h2, h3, h4]

/-- A valid identifier guarantees resolution: whatever the environment
does, the promise resolves (the catch converts every internal failure into
a successful fallback run). -/
lemma convert_ok_of_extract_some (env : ConvEnv) (url sid : String)
    (h : extractShareId url = some sid) :
    (convertClaudeToPdf env url).1 = .ok () := by
  unfold convertClaudeToPdf
  rcases htm : tryMain env url with ⟨e, ev⟩ | ev
  · simp [fallbackPdfGeneration, h]
  · simp

/-- C1: for a link whose identifier extracts, if every network path fails
the conversion still resolves, offering exactly the fallback document
under the deterministic name, after issuing the three proxy requests and
the direct request; the fallback document names the reconstructed share
link and carries the browser-print and retry-later instructions; and a
conversion can fail (reject) only when identifier extraction failed, so
only an invalid-link failure ever crosses the core boundary. -/
theorem claim1_failures_become_fallback :
    (∀ (env : ConvEnv) (url sid : String),
      extractShareId url = some sid →
      (∀ r b, env.net r ≠ .ok b) →
      convertClaudeToPdf env url =
        (.ok (),
         [.requested (proxyRequest ("https://corsproxy.io/?") sid),
          .requested (proxyRequest ("https://cors-anywhere.herokuapp.com/") sid),
          .requested (proxyRequest ("https://api.allorigins.win/raw?url=") sid),
          .requested (directRequest sid),
          .fallbackInvoked,
          .saved (pdfName sid) (.textDoc (fallbackLines sid))]) ∧
      ("Share URL: " ++ shareBase sid) ∈ fallbackLines sid ∧
      "1. Open the share URL in your browser and use the browser's print function"
        ∈ fallbackLines sid ∧
      "2. Try again later when the service might be more stable" ∈ fallbackLines sid) ∧
    (∀ (env : ConvEnv) (url : String),
      (convertClaudeToPdf env url).1 ≠ .ok () → extractShareId url = none) := by
  constructor
  · intro env url sid h hnet
    have hf := fetch_all_fail env.net sid hnet
    refine ⟨?_, by simp [fallbackLines], by simp [fallbackLines], by simp [fallbackLines]⟩
    unfold convertClaudeToPdf tryMain fallbackPdfGeneration
    simp [h, hf]
  · intro env url hne
    rcases hx : extractShareId url with _ | sid
    · rfl
    · exact absurd (convert_ok_of_extract_some env url sid hx) hne

/-- Shared concrete link and identifier for the witnesses. -/
def goodUrl : String := "https://claude.ai/share/3fa85f64-5717-4562-b3fc-2c963f66afa6"

def goodSid : String := "3fa85f64-5717-4562-b3fc-2c963f66afa6"

/-- A network where every request fails. -/
def netFailEnv : ConvEnv :=
  ⟨fun _ => .error "network down", fun _ => .loaded, true, .error "no canvas"⟩

/-- C1 witness: the theorem applied with every network path failing at the
concrete valid link. -/
theorem claim1_failures_become_fallback_witness :
    convertClaudeToPdf netFailEnv goodUrl =
      (.ok (),
       [.requested (proxyRequest ("https://corsproxy.io/?") goodSid),
        .requested (proxyRequest ("https://cors-anywhere.herokuapp.com/") goodSid),
        .requested (proxyRequest ("https://api.allorigins.win/raw?url=") goodSid),
        .requested (directRequest goodSid),
        .fallbackInvoked,
        .saved (pdfName goodSid) (.textDoc (fallbackLines goodSid))]) :=
  ((claim1_failures_become_fallback.1 netFailEnv goodUrl goodSid (by decide)
    (fun r b => by simp [netFailEnv])).1)

/-- C9: whenever the identifier extracts, exactly one file is offered for
download, named claude-conversation-(identifier).pdf, in the primary and
in every fallback case alike. -/
theorem claim9_single_deterministic_file (env : ConvEnv) (url sid : String)
    (h : extractShareId url = some sid) :
    (savedFiles (convertClaudeToPdf env url).2).map Prod.fst = [pdfName sid] := by
  unfold convertClaudeToPdf tryMain
  simp only [h]
  rcases hf : fetchClaudeContent env.net sid with ⟨res, reqs⟩
  rcases res with e | html
  · simp [fallbackPdfGeneration, h, savedFiles_append, savedFiles_requested, savedFiles]
  · rcases hi : env.iframe (processHtml html) with _ | _ | _
    · rcases hb : env.bodyFound with _ | _
      · simp [hi, hb, fallbackPdfGeneration, h, savedFiles_append, savedFiles_requested,
          savedFiles]
      · rcases hc : env.canvas with e | c
        · simp [hi, hb, hc, fallbackPdfGeneration, h, savedFiles_append,
            savedFiles_requested, savedFiles]
        · simp [hi, hb, hc, savedFiles_append, savedFiles_requested, savedFiles]
    · simp [hi, fallbackPdfGeneration, h, savedFiles_append, savedFiles_requested,
        savedFiles]
    · simp [hi, fallbackPdfGeneration, h, savedFiles_append, savedFiles_requested,
        savedFiles]

/-- An environment whose capture step succeeds with a 1000 by 2000 pixel
canvas. -/
def successEnv : ConvEnv :=
  ⟨fun _ => .ok "<html><main>hi</main></html>", fun _ => .loaded, true, .ok ⟨1000, 2000⟩⟩

/-- C9 witness: the theorem applied at the success environment and at the
all-paths-fail environment. -/
theorem claim9_single_deterministic_file_witness :
    (savedFiles (convertClaudeToPdf successEnv goodUrl).2).map Prod.fst = [pdfName goodSid] ∧
    (savedFiles (convertClaudeToPdf netFailEnv goodUrl).2).map Prod.fst = [pdfName goodSid] :=
  ⟨claim9_single_deterministic_file successEnv goodUrl goodSid (by decide),
   claim9_single_deterministic_file netFailEnv goodUrl goodSid (by decide)⟩

/-- An environment where the iframe loads but the capture step fails. -/
def leakEnv : ConvEnv :=
  ⟨fun _ => .ok "<html><main>hi</main></html>", fun _ => .loaded, true,
   .error "html2canvas failed"⟩

/-- C2 counterexample: with a valid link, a successful fetch and load, and
a failing capture, the appended iframe is never removed during the run:
the catch block goes straight to the fallback without touching the iframe,
so there is an exit path that leaks the rendering surface and the claim as
stated is false. -/
theorem claim2_counterexample :
    Event.iframeAppended ∈ (convertClaudeToPdf leakEnv goodUrl).2 ∧
    Event.iframeRemoved ∉ (convertClaudeToPdf leakEnv goodUrl).2 := by
  decide

/-- C2 amended: once the iframe has been appended (the fetch succeeded),
it is removed during the conversion run exactly when the load timed out
(the timeout handler removes it) or when the load, the content lookup and
the capture all succeeded (the success path removes it after saving); on
the inaccessible-content-window path and on any failure after a successful
load, the iframe remains attached. -/
theorem claim2_amended (env : ConvEnv) (url sid html : String)
    (h : extractShareId url = some sid)
    (hf : (fetchClaudeContent env.net sid).1 = .ok html) :
    Event.iframeAppended ∈ (convertClaudeToPdf env url).2 ∧
    (Event.iframeRemoved ∈ (convertClaudeToPdf env url).2 ↔
      (env.iframe (processHtml html) = .timedOut ∨
       (env.iframe (processHtml html) = .loaded ∧ env.bodyFound = true ∧
        ∃ c, env.canvas = .ok c))) := by
  rcases hfc : fetchClaudeContent env.net sid with ⟨res, reqs⟩
  rw [hfc] at hf
  simp only at hf
  subst hf
  unfold convertClaudeToPdf tryMain
  simp only [h, hfc]
  rcases hi : env.iframe (processHtml html) with _ | _ | _
  · rcases hb : env.bodyFound with _ | _
    · simp [hi, hb, fallbackPdfGeneration, h]
    · rcases hc : env.canvas with e | c
      · simp [hi, hb, hc, fallbackPdfGeneration, h]
      · simp [hi, hb, hc]
  · simp [hi, fallbackPdfGeneration, h]
  · simp [hi, fallbackPdfGeneration, h]

/-- C2 witness: the amended theorem applied at the success environment,
where the iframe is appended and removed. -/
theorem claim2_amended_witness :
    Event.iframeAppended ∈ (convertClaudeToPdf successEnv goodUrl).2 ∧
    Event.iframeRemoved ∈ (convertClaudeToPdf successEnv goodUrl).2 :=
  ⟨(claim2_amended successEnv goodUrl goodSid "<html><main>hi</main></html>"
      (by decide) rfl).1,
   (claim2_amended successEnv goodUrl goodSid "<html><main>hi</main></html>"
      (by decide) rfl).2.mpr (Or.inr ⟨rfl, rfl, ⟨⟨1000, 2000⟩, rfl⟩⟩)⟩

/-- A malformed link: the share path segment is misspelled. -/
def badUrl : String := "https://claude.ai/shared/abc"

/-- C3 counterexample: on a link whose identifier extraction fails, the
conversion does reject without issuing a network request, but the catch
block invokes the fallback generation first (it fails on re-extraction),
and the surfaced error is the generic PDF-generation message, not the
invalid-link error, so the claim as stated is false. -/
theorem claim3_counterexample :
    convertClaudeToPdf netFailEnv badUrl = (.error genericFailMsg, [Event.fallbackInvoked]) ∧
    genericFailMsg ≠ invalidLinkMsg ∧
    Event.fallbackInvoked ∈ (convertClaudeToPdf netFailEnv badUrl).2 := by
  refine ⟨rfl, by decide, by decide⟩

/-- C3 amended: when identifier extraction fails, the conversion rejects
before any network request, produces no file, and carries the generic
PDF-generation failure message (the internal invalid-link error is
swallowed); the fallback generation is attempted and fails on
re-extraction, so no fallback document is produced. -/
theorem claim3_amended (env : ConvEnv) (url : String)
    (h : extractShareId url = none) :
    convertClaudeToPdf env url = (.error genericFailMsg, [Event.fallbackInvoked]) ∧
    genericFailMsg ≠ invalidLinkMsg ∧
    (∀ r, Event.requested r ∉ (convertClaudeToPdf env url).2) ∧
    savedFiles (convertClaudeToPdf env url).2 = [] ∧
    Event.fallbackInvoked ∈ (convertClaudeToPdf env url).2 := by
  have hc : convertClaudeToPdf env url = (.error genericFailMsg, [Event.fallbackInvoked]) := by
    unfold convertClaudeToPdf tryMain fallbackPdfGeneration
    simp [h]
  refine ⟨hc, by decide, ?_, ?_, ?_⟩
  · intro r
    rw [hc]
    simp
  · rw [hc]
    simp [savedFiles]
  · rw [hc]
    simp

/-- C3 witness: the amended theorem applied at a concrete non-share link. -/
theorem claim3_amended_witness :
    convertClaudeToPdf netFailEnv "https://example.org/x" =
      (.error genericFailMsg, [Event.fallbackInvoked]) :=
  (claim3_amended netFailEnv "https://example.org/x" (by decide)).1

/-- C10: the host check is substring containment, not an exact host match:
a URL on the host claude.ai.attacker.example, which merely contains
claude.ai as a substring, passes validation and yields an identifier. -/
theorem claim10_substring_host_accepted :
    validateClaudeURL
      "https://claude.ai.attacker.example/share/3fa85f64-5717-4562-b3fc-2c963f66afa6" = true ∧
    extractShareId
      "https://claude.ai.attacker.example/share/3fa85f64-5717-4562-b3fc-2c963f66afa6"
      = some "3fa85f64-5717-4562-b3fc-2c963f66afa6" ∧
    (parseURL
      "https://claude.ai.attacker.example/share/3fa85f64-5717-4562-b3fc-2c963f66afa6".data).map
      URLParts.hostname = some ("claude.ai.attacker.example".data) ∧
    "claude.ai.attacker.example" ≠ "claude.ai" := by
  refine ⟨by decide, by decide, by decide, by decide⟩

end ChatwispPdf
